import Mathlib

/-!
Verification of the Redis-queue WhatsApp pipeline of the HLAS chatbot
repository: producer-side message cleaning and phone normalization,
sliding-window rate limiting, webhook processing, worker-side response
truncation, and the fallback / escalation manager.

Shallow embedding conventions:
- message and phone texts are `List Char` (Python strings indexed by code
  point); JSON payloads are an inductive `PyVal`;
- Python exceptions are `Except PyErr`, with the distinct exception classes
  the source catches (`KeyError`, `IndexError`, `TypeError`,
  `AttributeError`) kept apart, because the source catches different
  subsets at different places;
- timestamps are integers (seconds); `datetime.now().timestamp()` becomes
  an explicit `now` parameter;
- `random.choice` over a three-element list becomes an explicit choice
  index taken modulo 3.
-/

namespace Hlas

/-! ## Producer text validation (src/utils/whatsapp_handler.py) -/

/-- The whitespace class of Python `str.strip` / regex `\s`, restricted to
ASCII (the source relies on the Python default which additionally covers
Unicode whitespace; the claims only concern the ASCII behavior). -/
def isSpace (c : Char) : Bool :=
  c == ' ' || c == '\t' || c == '\n' || c == '\r' ||
  c == Char.ofNat 11 || c == Char.ofNat 12

/-- Python `message.strip()`: drop leading and trailing whitespace. -/
def pyStrip (l : List Char) : List Char :=
  ((l.dropWhile isSpace).reverse.dropWhile isSpace).reverse

/-- Python `re.sub(r'\s+', ' ', s)`: replace every maximal nonempty run of
whitespace by a single space.  The boolean state records whether the
previous character was inside a whitespace run (so only the first
character of a run emits the space). -/
def collapseWS : Bool → List Char → List Char
  | _, [] => []
  | inRun, c :: cs =>
    if isSpace c then
      if inRun then collapseWS true cs else ' ' :: collapseWS true cs
    else c :: collapseWS false cs

/-- `WhatsAppMessageHandler.validate_and_clean_message`
(src/utils/whatsapp_handler.py lines 162-181): `max_message_length` is
4096; an over-long cleaned message becomes its first 4096 characters with
`"..."` appended. -/
def validate_and_clean_message (message : List Char) : Option (List Char) :=
  if message = [] then none
  else
    let cleaned := collapseWS false (pyStrip message)
    let msg2 := if 4096 < cleaned.length
      then cleaned.take 4096 ++ ['.', '.', '.'] else cleaned
    if msg2.length < 1 then none else some msg2

/-- The character class kept by `re.sub(r'[^\d+]', '', phone)`: digits and
`+` (regex `\d` modeled as ASCII digits). -/
def keepPhoneChar (c : Char) : Bool := c.isDigit || c == '+'

/-- `WhatsAppMessageHandler.validate_phone_number`
(src/utils/whatsapp_handler.py lines 183-198). -/
def validate_phone_number (phone : List Char) : Option (List Char) :=
  if phone = [] then none
  else
    let clean_phone := phone.filter keepPhoneChar
    if clean_phone.length < 8 ∨ 15 < clean_phone.length then none
    else some clean_phone

/-! ## Rate limiter (src/utils/whatsapp_handler.py lines 200-228) -/

/-- One call of `check_rate_limit` on a single sender window:
`rate_limit_window` is 60 seconds and `rate_limit_max_messages` is 10.
The source keeps exactly the timestamps with `timestamp > now - 60`,
denies without appending when at least 10 survive, and otherwise appends
`now` and allows. -/
def rlStep (w : List Int) (now : Int) : Bool × List Int :=
  let pruned := w.filter (fun ts => decide (now - 60 < ts))
  if 10 ≤ pruned.length then (false, pruned) else (true, pruned ++ [now])

/-- The per-sender map `self.message_counts`, as an association list. -/
def getWindow (counts : List (String × List Int)) (phone : String) : List Int :=
  match counts.find? (fun kv => kv.1 == phone) with
  | some kv => kv.2
  | none => []

def setWindow (counts : List (String × List Int)) (phone : String)
    (w : List Int) : List (String × List Int) :=
  if (counts.find? (fun kv => kv.1 == phone)).isSome
  then counts.map (fun kv => if kv.1 == phone then (kv.1, w) else kv)
  else counts ++ [(phone, w)]

/-- `WhatsAppMessageHandler.check_rate_limit`, at the level of the whole
`message_counts` map (a missing sender starts from the empty window; the
pruned, possibly extended window is stored back). -/
def check_rate_limit (counts : List (String × List Int)) (phone : String)
    (now : Int) : Bool × List (String × List Int) :=
  let r := rlStep (getWindow counts phone) now
  (r.1, setWindow counts phone r.2)

/-- The accepted timestamps when a monotone sequence of requests by one
sender is fed through successive `check_rate_limit` calls. -/
def rlAccepted : List Int → List Int → List Int
  | _, [] => []
  | w, r :: rs =>
    match rlStep w r with
    | (true, w2) => r :: rlAccepted w2 rs
    | (false, w2) => rlAccepted w2 rs

/-- Membership of a timestamp in the rolling window `(T, T + 60]`. -/
def inWb (T t : Int) : Bool := decide (T < t) && decide (t ≤ T + 60)

/-- The pruning rule as the claim words it: remove exactly the timestamps
strictly older than `now - 60` (a second definition following the claim
text, to be compared with the pruning the source performs). -/
def claimPrune (w : List Int) (now : Int) : List Int :=
  w.filter (fun ts => decide (now - 60 ≤ ts))

/-! ## JSON payloads and Python dynamic access
(src/utils/whatsapp_handler.py lines 79-160) -/

/-- A parsed JSON value as Python represents it (dict / list / str / int /
bool / None); the claims only need string leaves, so floats are folded
into `num`. -/
inductive PyVal where
  | str (s : String)
  | num (n : Int)
  | boolean (b : Bool)
  | null
  | arr (xs : List PyVal)
  | obj (kvs : List (String × PyVal))

/-- The Python exception classes distinguished by the source: the pattern
loop catches `(KeyError, IndexError, TypeError)`, the status-update block
catches `(IndexError, KeyError)`, and the outer handler catches
everything (so `AttributeError` always reaches it). -/
inductive PyErr where
  | keyError
  | indexError
  | typeError
  | attrError
deriving DecidableEq

/-- Python truthiness of a JSON value. -/
def pyTruthy : PyVal → Bool
  | .str s => !(s == "")
  | .num n => !(n == 0)
  | .boolean b => b
  | .null => false
  | .arr xs => !xs.isEmpty
  | .obj kvs => !kvs.isEmpty

/-- Python `v[k]` for a string key `k`: dict lookup (`KeyError` when
missing), `TypeError` on every other value. -/
def pyGetItemStr : PyVal → String → Except PyErr PyVal
  | .obj kvs, k =>
    match kvs.find? (fun kv => kv.1 == k) with
    | some kv => .ok kv.2
    | none => .error .keyError
  | _, _ => .error .typeError

/-- Python `v[0]`: head of a list (`IndexError` when empty), first
character of a string, `KeyError` on a dict (JSON objects carry only
string keys, so the integer key 0 is never present), `TypeError`
otherwise. -/
def pyGetItem0 : PyVal → Except PyErr PyVal
  | .arr [] => .error .indexError
  | .arr (x :: _) => .ok x
  | .str s =>
    match s.data with
    | [] => .error .indexError
    | c :: _ => .ok (.str (String.mk [c]))
  | .obj _ => .error .keyError
  | _ => .error .typeError

/-- Python `v.get(k, default)`: only dicts have `.get`; every other value
raises `AttributeError`. -/
def pyGet : PyVal → String → PyVal → Except PyErr PyVal
  | .obj kvs, k, dflt =>
    match kvs.find? (fun kv => kv.1 == k) with
    | some kv => .ok kv.2
    | none => .ok dflt
  | _, _, _ => .error .attrError

def startsWithL : List Char → List Char → Bool
  | [], _ => true
  | _ :: _, [] => false
  | c :: cs, h :: hs => c == h && startsWithL cs hs

def hasSubL (needle hay : List Char) : Bool :=
  startsWithL needle hay ||
    (match hay with
     | [] => false
     | _ :: hs => hasSubL needle hs)

/-- Python `k in v` for a string `k`: key test on a dict, element equality
on a list, substring test on a string, `TypeError` otherwise. -/
def pyContains (k : String) : PyVal → Except PyErr Bool
  | .obj kvs => .ok (kvs.find? (fun kv => kv.1 == k)).isSome
  | .arr xs =>
    .ok (xs.any (fun x => match x with | .str s => s == k | _ => false))
  | .str s => .ok (hasSubL k.data s.data)
  | _ => .error .typeError

/-- The preliminary status-check path of `extract_message_data` (line 88):
`data.get('entry', [{}])[0].get('changes', [{}])[0].get('value', {})`. -/
def statusValue (d : PyVal) : Except PyErr PyVal := do
  let e1 ← pyGet d "entry" (.arr [.obj []])
  let i1 ← pyGetItem0 e1
  let e2 ← pyGet i1 "changes" (.arr [.obj []])
  let i2 ← pyGetItem0 e2
  pyGet i2 "value" (.obj [])

/-- The body of the status-update branch (lines 90-96); its surrounding
`try` catches only `IndexError` and `KeyError`. -/
def statusInner (value : PyVal) : Except PyErr Unit := do
  let sList ← pyGetItemStr value "statuses"
  let s0 ← pyGetItem0 sList
  let _ ← pyGet s0 "status" (.str "unknown")
  let _ ← pyGet s0 "recipient_id" (.str "unknown")
  pure ()

/-- Extraction shape 1 ("Standard format", lines 102-105):
`d['entry'][0]['changes'][0]['value']['messages'][0]['text']['body']` and
`...['from']`. -/
def pattern1 (d : PyVal) : Except PyErr (PyVal × PyVal) := do
  let e ← pyGetItemStr d "entry"
  let e0 ← pyGetItem0 e
  let ch ← pyGetItemStr e0 "changes"
  let ch0 ← pyGetItem0 ch
  let v ← pyGetItemStr ch0 "value"
  let msgs ← pyGetItemStr v "messages"
  let m0 ← pyGetItem0 msgs
  let t ← pyGetItemStr m0 "text"
  let body ← pyGetItemStr t "body"
  let frm ← pyGetItemStr m0 "from"
  pure (body, frm)

/-- Extraction shape 2 ("Alternative format 1", lines 107-110):
`d['entry']['changes']['value']['messages']['text']['body']` and
`d['entry']['changes']['value']['messages']['from']`. -/
def pattern2 (d : PyVal) : Except PyErr (PyVal × PyVal) := do
  let e ← pyGetItemStr d "entry"
  let ch ← pyGetItemStr e "changes"
  let v ← pyGetItemStr ch "value"
  let msgs ← pyGetItemStr v "messages"
  let t ← pyGetItemStr msgs "text"
  let body ← pyGetItemStr t "body"
  let frm ← pyGetItemStr msgs "from"
  pure (body, frm)

/-- Extraction shape 3 ("Alternative format 2", lines 112-115):
`d['body']['text']` and `d['from']`. -/
def pattern3 (d : PyVal) : Except PyErr (PyVal × PyVal) := do
  let b ← pyGetItemStr d "body"
  let t ← pyGetItemStr b "text"
  let f ← pyGetItemStr d "from"
  pure (t, f)

/-- Third iteration of the pattern loop (lines 122-128): a raising pattern
leaves the previously assigned values in place; a successful pattern
overwrites them (the loop ends either way). -/
def tryFrom3 (d : PyVal) (m p : Option PyVal) : Option PyVal × Option PyVal :=
  match pattern3 d with
  | .ok mp => (some mp.1, some mp.2)
  | .error _ => (m, p)

/-- Second iteration of the pattern loop: `break` exactly when both
assigned values are truthy. -/
def tryFrom2 (d : PyVal) (m p : Option PyVal) : Option PyVal × Option PyVal :=
  match pattern2 d with
  | .ok mp =>
    if pyTruthy mp.1 && pyTruthy mp.2 then (some mp.1, some mp.2)
    else tryFrom3 d (some mp.1) (some mp.2)
  | .error _ => tryFrom3 d m p

/-- The whole pattern loop: `message` and `user_phone` start as Python
`None`. -/
def tryPatterns (d : PyVal) : Option PyVal × Option PyVal :=
  match pattern1 d with
  | .ok mp =>
    if pyTruthy mp.1 && pyTruthy mp.2 then (some mp.1, some mp.2)
    else tryFrom2 d (some mp.1) (some mp.2)
  | .error _ => tryFrom2 d none none

/-- Truthiness of the loop state (Python `None` is falsy). -/
def pairTruthy : Option PyVal × Option PyVal → Bool
  | (some m, some p) => pyTruthy m && pyTruthy p
  | (some _, none) => false
  | (none, _) => false

/-- The metadata block (lines 136-148), inside its own catch-all `try`
(any exception leaves `metadata` as the empty dict). -/
def metadataCompute (d : PyVal) : Except PyErr (List (String × PyVal)) := do
  let c1 ← pyContains "entry" d
  if !c1 then return []
  let e ← pyGetItemStr d "entry"
  match e with
  | .arr _ =>
    let entry ← pyGetItem0 e
    let c2 ← pyContains "changes" entry
    if !c2 then return []
    let ch ← pyGetItemStr entry "changes"
    match ch with
    | .arr _ =>
      let change ← pyGetItem0 ch
      let c3 ← pyContains "value" change
      if !c3 then return []
      let v ← pyGetItemStr change "value"
      let c4 ← pyContains "messages" v
      if !c4 then return []
      let msgs ← pyGetItemStr v "messages"
      let m0 ← pyGetItem0 msgs
      let mid ← pyGet m0 "id" .null
      let ts ← pyGet m0 "timestamp" .null
      let ty ← pyGet m0 "type" (.str "text")
      let contacts ← pyGet v "contacts" (.arr [.obj []])
      let c0 ← pyGetItem0 contacts
      let prof ← pyGet c0 "profile" (.obj [])
      let nm ← pyGet prof "name" (.str "Unknown")
      return [("message_id", mid), ("timestamp", ts), ("type", ty),
              ("from_name", nm)]
    | _ => return []
  | _ => return []

def extractMetadata (d : PyVal) : List (String × PyVal) :=
  match metadataCompute d with
  | .ok md => md
  | .error _ => []

/-- `validate_and_clean_message` applied to a loop value known to be
truthy: a non-string value reaches `message.strip()` and raises
`AttributeError`, which only the outer handler catches. -/
def validateCleanPy (v : PyVal) : Except PyErr (Option String) :=
  if !pyTruthy v then .ok none
  else
    match v with
    | .str s => .ok ((validate_and_clean_message s.data).map String.mk)
    | _ => .error .attrError

/-- `validate_phone_number` applied to a loop value: a truthy non-string
value reaches `re.sub` and raises `TypeError`. -/
def validatePhonePy (v : PyVal) : Except PyErr (Option String) :=
  if !pyTruthy v then .ok none
  else
    match v with
    | .str s => .ok ((validate_phone_number s.data).map String.mk)
    | _ => .error .typeError

/-- Which log call `extract_message_data` makes on each return path:
`logger.info` for an ignored status update, the `logger.warning` of line
132 when no pattern produced a truthy pair, and the `logger.error` of
line 159 when the outer exception handler fires. -/
inductive LogKind where
  | noLog
  | statusIgnored
  | extractWarning
  | exnError
deriving DecidableEq

structure ExtractOut where
  message : Option String
  phone : Option String
  metadata : List (String × PyVal)
  log : LogKind

/-- `WhatsAppMessageHandler.extract_message_data`
(src/utils/whatsapp_handler.py lines 79-160). -/
def extract_message_data (d : PyVal) : ExtractOut :=
  match statusValue d with
  | .error _ => ⟨none, none, [], .exnError⟩
  | .ok value =>
    match pyContains "statuses" value with
    | .error _ => ⟨none, none, [], .exnError⟩
    | .ok true =>
      match statusInner value with
      | .ok _ => ⟨none, none, [], .statusIgnored⟩
      | .error .keyError => ⟨none, none, [], .statusIgnored⟩
      | .error .indexError => ⟨none, none, [], .statusIgnored⟩
      | .error _ => ⟨none, none, [], .exnError⟩
    | .ok false =>
      match tryPatterns d with
      | (some m, some p) =>
        if pyTruthy m && pyTruthy p then
          let md := extractMetadata d
          match validateCleanPy m with
          | .error _ => ⟨none, none, [], .exnError⟩
          | .ok m2 =>
            match validatePhonePy p with
            | .error _ => ⟨none, none, [], .exnError⟩
            | .ok p2 => ⟨m2, p2, md, .noLog⟩
        else ⟨none, none, [], .extractWarning⟩
      | _ => ⟨none, none, [], .extractWarning⟩

/-- Shape-match predicates: a payload matches a supported shape when the
corresponding extraction pattern runs without raising and yields a truthy
message and a truthy sender (the break condition of the loop). -/
def matchesShape1 (d : PyVal) : Bool :=
  match pattern1 d with
  | .ok mp => pyTruthy mp.1 && pyTruthy mp.2
  | .error _ => false

def matchesShape2 (d : PyVal) : Bool :=
  match pattern2 d with
  | .ok mp => pyTruthy mp.1 && pyTruthy mp.2
  | .error _ => false

def matchesShape3 (d : PyVal) : Bool :=
  match pattern3 d with
  | .ok mp => pyTruthy mp.1 && pyTruthy mp.2
  | .error _ => false

/-- Whether the payload carries a status-update marker that the status
branch acts on (the preliminary walk succeeds and finds `'statuses'`). -/
def hasStatusMarker (d : PyVal) : Bool :=
  match statusValue d with
  | .ok v =>
    match pyContains "statuses" v with
    | .ok b => b
    | .error _ => false
  | .error _ => false

/-- The preliminary status walk succeeds and finds no marker (only then
does control reach the pattern loop). -/
def statusNoMarker (d : PyVal) : Bool :=
  match statusValue d with
  | .ok v =>
    match pyContains "statuses" v with
    | .ok b => !b
    | .error _ => false
  | .error _ => false

/-! ## Webhook processing (src/utils/whatsapp_handler.py lines 230-278) -/

/-- The direct outbound notices the producer can send (their exact texts
carry no claim-relevant content and are elided). -/
inductive DirectText where
  | slowDown
  | queueApology
  | busyApology
deriving DecidableEq

structure Job where
  message : String
  user_phone : String
  session_id : String
  metadata : List (String × PyVal)

structure WebhookResult where
  status : Nat
  enqueued : Option Job
  sends : List (String × DirectText)
  counts : List (String × List Int)

/-- `WhatsAppMessageHandler.process_webhook`: `body = none` models
`await request.json()` raising (the outer handler still returns 200);
`redisOk` models `self.redis_client` being non-null; `pushOk` models
`rpush` not raising. -/
def process_webhook (body : Option PyVal) (counts : List (String × List Int))
    (now : Int) (redisOk pushOk : Bool) : WebhookResult :=
  match body with
  | none => ⟨200, none, [], counts⟩
  | some d =>
    let ex := extract_message_data d
    match ex.message, ex.phone with
    | some m, some p =>
      let rl := check_rate_limit counts p now
      if !rl.1 then ⟨200, none, [(p, .slowDown)], rl.2⟩
      else if redisOk then
        if pushOk then
          ⟨200, some ⟨m, p, "whatsapp_" ++ p, ex.metadata⟩, [], rl.2⟩
        else ⟨200, none, [(p, .queueApology)], rl.2⟩
      else ⟨200, none, [(p, .busyApology)], rl.2⟩
    | _, _ => ⟨200, none, [], counts⟩

/-! ## Fallback and escalation manager (src/agents/fallback_system.py) -/

/-- Modelled from the spec: the Session Store (`app/session_manager.py` is
not part of the sources; spec section 3 gives `SessionState.error_count`
as a nonnegative integer created at 0 on first reference to a
`session_id`, section 6 gives `get(session_id) -> SessionState` and
`increment_error_count(session_id)`).  A total map from session id to
error count makes creation-on-first-reference implicit and makes
`get_session` total. -/
def Store : Type := String → Nat

/-- Modelled from the spec: `increment_error_count(session_id)` adds 1 to
the error count of exactly that session. -/
def increment_error_count (store : Store) (sid : String) : Store :=
  fun s => if s = sid then store s + 1 else store s

/-- The reply selected by the fallback manager.  The canned texts carry no
claim-relevant content and are elided; what matters is which list the
reply is drawn from: a category list of `self.fallback_responses`, the
escalation (human-handoff) list of `get_escalation_response`, or the
hardcoded apology of the exception handler. -/
inductive Reply where
  | canned (category : String) (idx : Nat)
  | escalation (idx : Nat)
  | apology
deriving DecidableEq

def isEscalation : Reply → Bool
  | .escalation _ => true
  | _ => false

/-- The keys of `self.fallback_responses` (each mapped to a three-element
list of variants). -/
def knownCategories : List String :=
  ["general_error", "input_validation_error", "agent_error",
   "timeout_error", "too_many_errors", "off_topic",
   "product_not_available"]

/-- `FallbackManager.should_escalate` (lines 93-115):
`escalation_triggers` sets `high_error_count` to 5 and
`repeated_failures` to 3; the count is read from the session before any
increment. -/
def should_escalate (store : Store) (sid : String) (error_type : String) : Bool :=
  decide (5 ≤ store sid) ||
    (error_type == "agent_error" && decide (3 ≤ store sid))

/-- `FallbackManager.get_fallback_response` (lines 67-91): with a session
id, escalate before selecting a canned reply; otherwise select from the
category list (`dict.get` falls back to `general_error`), and increment
the error count only on the non-escalated path.  `choice` stands for the
`random.choice` draw; every list has three variants. -/
def get_fallback_response (error_type : String) (sid : Option String)
    (store : Store) (choice : Nat) : Reply × Store :=
  match sid with
  | some s =>
    if should_escalate store s error_type then
      (.escalation (choice % 3), store)
    else
      (.canned (if knownCategories.contains error_type then error_type
                else "general_error") (choice % 3),
       increment_error_count store s)
  | none =>
    (.canned (if knownCategories.contains error_type then error_type
              else "general_error") (choice % 3),
     store)

/-- One `agent_error` call of the fallback manager on a session. -/
def agentCall (store : Store) (sid : String) (choice : Nat) : Reply × Store :=
  get_fallback_response "agent_error" (some sid) store choice

/-! ## Worker response policy (src/worker.py lines 56-75) -/

/-- The truncation step of the worker loop (src/worker.py lines 64-66):
a response longer than 4096 characters becomes its first 4090 characters
followed by `"..."`. -/
def worker_truncate (r : List Char) : List Char :=
  if 4096 < r.length then r.take 4090 ++ ['.', '.', '.'] else r

/-- Steps 2-3 of the worker loop body: substitute the fallback text when
the orchestrator result is empty (falsy), then apply the truncation
policy; the result is what `send_whatsapp_message` dispatches. -/
def worker_finalize (orch : List Char) (fallbackText : List Char) : List Char :=
  worker_truncate (if orch.isEmpty then fallbackText else orch)

/-! ## Helper lemmas: whitespace collapsing and stripping -/

/-- Adjacent characters of a cleaned message are never both whitespace. -/
def NoAdjSpace (l : List Char) : Prop :=
  List.Chain' (fun x y => isSpace x = false ∨ isSpace y = false) l

lemma collapseWS_nil (b : Bool) : collapseWS b [] = [] := by
  cases b <;> rfl

lemma collapseWS_cons_space (b : Bool) (a : Char) (t : List Char)
    (h : isSpace a = true) :
    collapseWS b (a :: t) =
      if b then collapseWS true t else ' ' :: collapseWS true t := by
  cases b <;> simp [collapseWS, h]

lemma collapseWS_cons_nonspace (b : Bool) (a : Char) (t : List Char)
    (h : isSpace a = false) :
    collapseWS b (a :: t) = a :: collapseWS false t := by
  cases b <;> simp [collapseWS, h]

lemma collapse_space_char :
    ∀ (b : Bool) (l : List Char), ∀ c ∈ collapseWS b l, isSpace c = true → c = ' ' := by
  intro b l
  induction l generalizing b with
  | nil => intro c hc; rw [collapseWS_nil] at hc; cases hc
  | cons a t ih =>
    intro c hc hsp
    by_cases ha : isSpace a = true
    · rw [collapseWS_cons_space b a t ha] at hc
      cases b with
      | true => exact ih true c hc hsp
      | false =>
        simp only [if_neg Bool.false_ne_true] at hc
        rcases List.mem_cons.mp hc with h | h
        · exact h
        · exact ih true c h hsp
    · rw [collapseWS_cons_nonspace b a t (by simpa using ha)] at hc
      rcases List.mem_cons.mp hc with h | h
      · subst h; rw [hsp] at ha; exact absurd rfl ha
      · exact ih false c h hsp

lemma collapse_true_head :
    ∀ (l : List Char) (c : Char), (collapseWS true l).head? = some c →
      isSpace c = false := by
  intro l
  induction l with
  | nil => intro c hc; rw [collapseWS_nil] at hc; cases hc
  | cons a t ih =>
    intro c hc
    by_cases ha : isSpace a = true
    · rw [collapseWS_cons_space true a t ha, if_pos rfl] at hc
      exact ih c hc
    · have ha2 : isSpace a = false := by simpa using ha
      rw [collapseWS_cons_nonspace true a t ha2] at hc
      simp only [List.head?_cons, Option.some.injEq] at hc
      subst hc
      exact ha2

lemma collapse_chain : ∀ (b : Bool) (l : List Char), NoAdjSpace (collapseWS b l) := by
  intro b l
  induction l generalizing b with
  | nil => rw [collapseWS_nil]; exact List.chain'_nil
  | cons a t ih =>
    by_cases ha : isSpace a = true
    · rw [collapseWS_cons_space b a t ha]
      cases b with
      | true => exact ih true
      | false =>
        simp only [if_neg Bool.false_ne_true]
        refine List.chain'_cons'.mpr ⟨?_, ih true⟩
        intro y hy
        exact Or.inr (collapse_true_head t y hy)
    · have ha2 : isSpace a = false := by simpa using ha
      rw [collapseWS_cons_nonspace b a t ha2]
      refine List.chain'_cons'.mpr ⟨?_, ih false⟩
      intro y _
      exact Or.inl ha2

lemma collapse_false_head :
    ∀ (l : List Char), (∀ c, l.head? = some c → isSpace c = false) →
      ∀ c, (collapseWS false l).head? = some c → isSpace c = false := by
  intro l hl c hc
  cases l with
  | nil => rw [collapseWS_nil] at hc; cases hc
  | cons a t =>
    have ha : isSpace a = false := hl a rfl
    rw [collapseWS_cons_nonspace false a t ha] at hc
    simp only [List.head?_cons, Option.some.injEq] at hc
    subst hc; exact ha

lemma collapse_nil_all_space :
    ∀ (b : Bool) (l : List Char), collapseWS b l = [] →
      ∀ c ∈ l, isSpace c = true := by
  intro b l
  induction l generalizing b with
  | nil => intro _ c hc; cases hc
  | cons a t ih =>
    intro hnil c hc
    by_cases ha : isSpace a = true
    · rw [collapseWS_cons_space b a t ha] at hnil
      cases b with
      | true =>
        simp only [if_pos rfl] at hnil
        rcases List.mem_cons.mp hc with h | h
        · subst h; exact ha
        · exact ih true hnil c h
      | false => simp at hnil
    · rw [collapseWS_cons_nonspace b a t (by simpa using ha)] at hnil
      cases hnil

lemma collapse_ne_nil :
    ∀ (b : Bool) (l : List Char) (c : Char), c ∈ l → isSpace c = false →
      collapseWS b l ≠ [] := by
  intro b l c hc hcs hnil
  exact absurd (collapse_nil_all_space b l hnil c hc) (by simp [hcs])

lemma mem_of_getLast?_eq :
    ∀ (l : List Char) (x : Char), l.getLast? = some x → x ∈ l := by
  intro l
  induction l with
  | nil => intro x hx; simp at hx
  | cons a t ih =>
    intro x hx
    cases t with
    | nil =>
      simp only [List.getLast?_singleton, Option.some.injEq] at hx
      subst hx; exact List.mem_singleton_self a
    | cons b t2 =>
      rw [List.getLast?_cons_cons] at hx
      exact List.mem_cons_of_mem a (ih x hx)

lemma collapse_last :
    ∀ (l : List Char) (b : Bool) (c : Char),
      (collapseWS b l).getLast? = some c → isSpace c = true →
      ∀ x, l.getLast? = some x → isSpace x = true := by
  intro l
  induction l with
  | nil => intro b c hc _ x hx; simp at hx
  | cons a t ih =>
    intro b c hc hcs x hx
    cases t with
    | nil =>
      simp only [List.getLast?_singleton, Option.some.injEq] at hx
      subst hx
      by_cases ha : isSpace a = true
      · exact ha
      · exfalso
        have ha2 : isSpace a = false := by simpa using ha
        rw [collapseWS_cons_nonspace b a [] ha2, collapseWS_nil] at hc
        simp only [List.getLast?_singleton, Option.some.injEq] at hc
        subst hc; rw [hcs] at ha2; cases ha2
    | cons a2 t2 =>
      have hx2 : (a2 :: t2).getLast? = some x := by
        rwa [List.getLast?_cons_cons] at hx
      by_cases ha : isSpace a = true
      · rw [collapseWS_cons_space b a (a2 :: t2) ha] at hc
        cases b with
        | true =>
          simp only [if_pos rfl] at hc
          exact ih true c hc hcs x hx2
        | false =>
          simp only [if_neg Bool.false_ne_true] at hc
          cases hX : collapseWS true (a2 :: t2) with
          | nil =>
            have hall := collapse_nil_all_space true (a2 :: t2) hX
            exact hall x (mem_of_getLast?_eq _ x hx2)
          | cons y ys =>
            rw [hX, List.getLast?_cons_cons, ← hX] at hc
            exact ih true c hc hcs x hx2
      · rw [collapseWS_cons_nonspace b a (a2 :: t2) (by simpa using ha)] at hc
        cases hX : collapseWS false (a2 :: t2) with
        | nil =>
          rw [hX] at hc
          simp only [List.getLast?_singleton, Option.some.injEq] at hc
          subst hc
          rw [hcs] at ha; exact absurd rfl ha
        | cons y ys =>
          rw [hX, List.getLast?_cons_cons, ← hX] at hc
          exact ih false c hc hcs x hx2

lemma mem_dropWhile_of_neg :
    ∀ (l : List Char) (c : Char), c ∈ l → isSpace c = false →
      c ∈ l.dropWhile isSpace := by
  intro l
  induction l with
  | nil => intro c hc; cases hc
  | cons a t ih =>
    intro c hc hcs
    by_cases ha : isSpace a = true
    · rw [List.dropWhile_cons_of_pos ha]
      rcases List.mem_cons.mp hc with h | h
      · subst h; rw [hcs] at ha; cases ha
      · exact ih c h hcs
    · rw [List.dropWhile_cons_of_neg ha]
      exact hc

lemma mem_pyStrip (m : List Char) (c : Char) (hc : c ∈ m)
    (hcs : isSpace c = false) : c ∈ pyStrip m := by
  unfold pyStrip
  rw [List.mem_reverse]
  exact mem_dropWhile_of_neg _ c (List.mem_reverse.mpr
    (mem_dropWhile_of_neg m c hc hcs)) hcs

lemma dropWhile_head_nonspace :
    ∀ (l : List Char) (c : Char), (l.dropWhile isSpace).head? = some c →
      isSpace c = false := by
  intro l
  induction l with
  | nil => intro c hc; cases hc
  | cons a t ih =>
    intro c hc
    by_cases ha : isSpace a = true
    · rw [List.dropWhile_cons_of_pos ha] at hc
      exact ih c hc
    · rw [List.dropWhile_cons_of_neg ha] at hc
      simp only [List.head?_cons, Option.some.injEq] at hc
      subst hc
      simpa using ha

lemma pyStrip_head (m : List Char) (c : Char)
    (hc : (pyStrip m).head? = some c) : isSpace c = false := by
  have hA : m.dropWhile isSpace =
      pyStrip m ++ (List.takeWhile isSpace (m.dropWhile isSpace).reverse).reverse := by
    unfold pyStrip
    conv_lhs => rw [← List.reverse_reverse (m.dropWhile isSpace)]
    conv_lhs =>
      rw [← List.takeWhile_append_dropWhile isSpace (m.dropWhile isSpace).reverse]
    rw [List.reverse_append]
  apply dropWhile_head_nonspace m c
  rw [hA]
  cases hS : pyStrip m with
  | nil => rw [hS] at hc; cases hc
  | cons c0 r0 =>
    rw [hS] at hc
    simp only [List.head?_cons, Option.some.injEq] at hc
    subst hc
    simp

lemma pyStrip_last (m : List Char) (c : Char)
    (hc : (pyStrip m).getLast? = some c) : isSpace c = false := by
  unfold pyStrip at hc
  rw [List.getLast?_reverse] at hc
  exact dropWhile_head_nonspace _ c hc

lemma pyStrip_eq_nil_of_all_space (m : List Char)
    (h : ∀ c ∈ m, isSpace c = true) : pyStrip m = [] := by
  unfold pyStrip
  have hA : m.dropWhile isSpace = [] := List.dropWhile_eq_nil_iff.mpr h
  rw [hA]
  rfl

/-- The cleaned text of `validate_and_clean_message` before the length
check. -/
def cleanedOf (m : List Char) : List Char := collapseWS false (pyStrip m)

lemma validate_eq (m : List Char) :
    validate_and_clean_message m =
      if m = [] then none
      else if 4096 < (cleanedOf m).length
        then some ((cleanedOf m).take 4096 ++ ['.', '.', '.'])
        else if (cleanedOf m).length < 1 then none
        else some (cleanedOf m) := by
  unfold validate_and_clean_message cleanedOf
  rcases eq_or_ne m [] with hm | hm
  · simp [hm]
  · simp only [if_neg hm]
    by_cases h46 : 4096 < (collapseWS false (pyStrip m)).length
    · have hlen : ¬ ((collapseWS false (pyStrip m)).take 4096 ++
          ['.', '.', '.']).length < 1 := by
        simp [List.length_append]
      simp only [if_pos h46, if_neg hlen]
    · simp only [if_neg h46]

lemma cleaned_nil_iff (m : List Char) :
    cleanedOf m = [] ↔ ∀ c ∈ m, isSpace c = true := by
  constructor
  · intro hnil c hc
    by_cases hcs : isSpace c = true
    · exact hcs
    · exfalso
      have hcs2 : isSpace c = false := by simpa using hcs
      exact collapse_ne_nil false (pyStrip m) c
        (mem_pyStrip m c hc hcs2) hcs2 hnil
  · intro h
    unfold cleanedOf
    rw [pyStrip_eq_nil_of_all_space m h]
    rfl

lemma head?_take_eq (l : List Char) (n : Nat) (c : Char)
    (h : (l.take n).head? = some c) : l.head? = some c := by
  cases l with
  | nil => simp at h
  | cons a t =>
    cases n with
    | zero => simp at h
    | succ k => simpa using h

lemma marker_chain : NoAdjSpace ['.', '.', '.'] := by
  unfold NoAdjSpace
  refine List.chain'_cons.mpr ⟨Or.inl (by decide), ?_⟩
  exact List.chain'_cons.mpr ⟨Or.inl (by decide), List.chain'_singleton '.'⟩

/-- Claim C5: `validate_and_clean_message` collapses internal whitespace
runs to single spaces, trims both ends, returns `none` exactly for empty
or whitespace-only input, and truncates a cleaned message longer than
4096 characters to its first (at most) 4096 characters with the `"..."`
marker appended. -/
theorem validate_and_clean_message_spec (m : List Char) :
    (validate_and_clean_message m = none ↔ ∀ c ∈ m, isSpace c = true) ∧
    (∀ r, validate_and_clean_message m = some r →
      (∀ c, r.head? = some c → isSpace c = false) ∧
      (∀ c, r.getLast? = some c → isSpace c = false) ∧
      NoAdjSpace r ∧
      (∀ c ∈ r, isSpace c = true → c = ' ') ∧
      ((cleanedOf m).length ≤ 4096 → r = cleanedOf m) ∧
      (4096 < (cleanedOf m).length →
        r = (cleanedOf m).take 4096 ++ ['.', '.', '.'] ∧
        ((cleanedOf m).take 4096).length ≤ 4096)) := by
  rw [validate_eq m]
  rcases eq_or_ne m [] with hm | hm
  · subst hm
    refine ⟨by simp, ?_⟩
    intro r hr
    simp at hr
  · simp only [if_neg hm]
    by_cases h46 : 4096 < (cleanedOf m).length
    · simp only [if_pos h46]
      constructor
      · constructor
        · intro h; cases h
        · intro hall
          exfalso
          have : cleanedOf m = [] := (cleaned_nil_iff m).mpr hall
          rw [this] at h46
          simp at h46
      · intro r hr
        have hreq : r = (cleanedOf m).take 4096 ++ ['.', '.', '.'] := by
          injection hr with h; exact h.symm
        subst hreq
        refine ⟨?_, ?_, ?_, ?_, ?_, ?_⟩
        · intro c hc
          cases htk : (cleanedOf m).take 4096 with
          | nil =>
            rcases List.take_eq_nil_iff.mp htk with h0 | h0
            · cases h0
            · rw [h0] at h46; simp at h46
          | cons c0 r0 =>
            rw [htk] at hc
            simp only [List.cons_append, List.head?_cons,
              Option.some.injEq] at hc
            subst hc
            have hh : (cleanedOf m).head? = some c0 :=
              head?_take_eq _ 4096 c0 (by rw [htk]; rfl)
            exact collapse_false_head (pyStrip m) (pyStrip_head m) c0 hh
        · intro c hc
          rw [List.getLast?_append_of_ne_nil _ (by simp)] at hc
          have : c = '.' := by
            simp only [show (['.', '.', '.'] : List Char).getLast? = some '.'
              from rfl, Option.some.injEq] at hc
            exact hc.symm
          subst this
          decide
        · refine List.chain'_append.mpr ⟨?_, marker_chain, ?_⟩
          · exact (collapse_chain false (pyStrip m)).take 4096
          · intro x _ y hy
            have hy2 : y = '.' := by
              have h := Option.mem_def.mp hy
              injection h with h2
              exact h2.symm
            subst hy2
            exact Or.inr (by decide)
        · intro c hc hcs
          rcases List.mem_append.mp hc with h | h
          · exact collapse_space_char false (pyStrip m) c
              (List.take_subset 4096 _ h) hcs
          · exfalso
            rcases List.mem_cons.mp h with h2 | h2
            · subst h2; cases hcs
            · rcases List.mem_cons.mp h2 with h3 | h3
              · subst h3; cases hcs
              · rcases List.mem_cons.mp h3 with h4 | h4
                · subst h4; cases hcs
                · cases h4
        · intro hle; omega
        · intro _
          refine ⟨rfl, ?_⟩
          rw [List.length_take]
          exact min_le_left _ _
    · simp only [if_neg h46]
      by_cases hnil : (cleanedOf m).length < 1
      · simp only [if_pos hnil]
        have hempty : cleanedOf m = [] := by
          cases h : cleanedOf m with
          | nil => rfl
          | cons a t => rw [h] at hnil; simp at hnil
        constructor
        · constructor
          · intro _
            exact (cleaned_nil_iff m).mp hempty
          · intro _
            trivial
        · intro r hr; cases hr
      · simp only [if_neg hnil]
        have hne : cleanedOf m ≠ [] := by
          intro h; rw [h] at hnil; simp at hnil
        constructor
        · constructor
          · intro h; cases h
          · intro hall
            exact absurd ((cleaned_nil_iff m).mpr hall) hne
        · intro r hr
          have hreq : r = cleanedOf m := by injection hr with h; exact h.symm
          subst hreq
          refine ⟨?_, ?_, collapse_chain false (pyStrip m),
            collapse_space_char false (pyStrip m), fun _ => rfl,
            fun h => absurd h h46⟩
          · exact collapse_false_head (pyStrip m) (pyStrip_head m)
          · intro c hc
            by_cases hcs : isSpace c = true
            · exfalso
              have hlast := collapse_last (pyStrip m) false c hc hcs
              have hsne : pyStrip m ≠ [] := by
                intro h
                apply hne
                unfold cleanedOf
                rw [h]
                rfl
              cases hgl : (pyStrip m).getLast? with
              | none => exact hsne (List.getLast?_eq_none_iff.mp hgl)
              | some x =>
                have := hlast x hgl
                rw [pyStrip_last m x hgl] at this
                cases this
            · simpa using hcs

/-- Witness for `validate_and_clean_message_spec`: a concrete message with
leading, internal and trailing whitespace runs. -/
theorem validate_and_clean_message_spec_witness :
    validate_and_clean_message " ab   cd ".data = some "ab cd".data ∧
    "ab cd".data = cleanedOf " ab   cd ".data :=
  ⟨by decide,
   (((validate_and_clean_message_spec " ab   cd ".data).2 "ab cd".data
      (by decide)).2.2.2.2).1 (by decide)⟩

/-! ## Phone normalization: theorems -/

lemma validate_phone_eq (p : List Char) :
    validate_phone_number p =
      if (p.filter keepPhoneChar).length < 8 ∨ 15 < (p.filter keepPhoneChar).length
      then none else some (p.filter keepPhoneChar) := by
  unfold validate_phone_number
  rcases eq_or_ne p [] with hp | hp
  · subst hp
    simp
  · simp only [if_neg hp]

/-- Counterexample to claim C6: the source keeps every `+`, wherever it
occurs, so the normalized result can contain `+` past the first
position.  On `"1+2345678"` the code returns the input unchanged, with
`+` at index 1. -/
theorem validate_phone_plus_counterexample :
    validate_phone_number "1+2345678".data = some "1+2345678".data ∧
    "1+2345678".data.get? 1 = some '+' := by
  constructor
  · decide
  · decide

/-- Claim C6 as amended: `validate_phone_number` strips all characters
except digits and `+` (every `+` is retained, wherever it occurs), and
returns `none` exactly when the stripped identifier is shorter than 8 or
longer than 15 characters. -/
theorem validate_phone_number_spec (p : List Char) :
    (validate_phone_number p = none ↔
      (p.filter keepPhoneChar).length < 8 ∨ 15 < (p.filter keepPhoneChar).length) ∧
    (∀ r, validate_phone_number p = some r →
      r = p.filter keepPhoneChar ∧
      ∀ c ∈ r, c.isDigit = true ∨ c = '+') := by
  rw [validate_phone_eq p]
  by_cases h : (p.filter keepPhoneChar).length < 8 ∨ 15 < (p.filter keepPhoneChar).length
  · simp only [if_pos h]
    constructor
    · constructor
      · intro _; exact h
      · intro _; trivial
    · intro r hr; cases hr
  · simp only [if_neg h]
    constructor
    · constructor
      · intro hc; cases hc
      · intro hc; exact absurd hc h
    · intro r hr
      have hreq : r = p.filter keepPhoneChar := by
        injection hr with h2; exact h2.symm
      refine ⟨hreq, ?_⟩
      intro c hc
      subst hreq
      have hk : keepPhoneChar c = true := List.of_mem_filter hc
      unfold keepPhoneChar at hk
      rcases Bool.or_eq_true_iff.mp hk with h1 | h1
      · exact Or.inl h1
      · exact Or.inr (by exact_mod_cast eq_of_beq h1)

/-- Witness for `validate_phone_number_spec`: a raw identifier with
formatting characters that strip away. -/
theorem validate_phone_number_spec_witness :
    validate_phone_number "+65 9123-4567".data = some "+6591234567".data ∧
    "+6591234567".data = "+65 9123-4567".data.filter keepPhoneChar :=
  ⟨by decide,
   ((validate_phone_number_spec "+65 9123-4567".data).2 "+6591234567".data
      (by decide)).1⟩

/-- Claim C7: phone normalization is idempotent — normalizing an accepted
(already normalized) identifier returns it unchanged. -/
theorem validate_phone_number_idempotent (p r : List Char)
    (h : validate_phone_number p = some r) :
    validate_phone_number r = some r := by
  rw [validate_phone_eq p] at h
  by_cases hb : (p.filter keepPhoneChar).length < 8 ∨ 15 < (p.filter keepPhoneChar).length
  · rw [if_pos hb] at h; cases h
  · rw [if_neg hb] at h
    have hreq : r = p.filter keepPhoneChar := by
      injection h with h2; exact h2.symm
    have hself : r.filter keepPhoneChar = r := by
      apply List.filter_eq_self.mpr
      intro a ha
      rw [hreq] at ha
      exact List.of_mem_filter ha
    rw [validate_phone_eq r, hself, if_neg (hreq ▸ hb)]

/-- Witness for `validate_phone_number_idempotent` at a concrete accepted
identifier. -/
theorem validate_phone_number_idempotent_witness :
    validate_phone_number "+6591234567".data = some "+6591234567".data :=
  validate_phone_number_idempotent "+6591234567".data "+6591234567".data
    (by decide)

/-! ## Worker truncation: theorems -/

/-- Claim C8: a worker response longer than 4096 characters is truncated
before dispatch to exactly its first 4090 characters plus the 3-character
marker; in particular a 5000-character orchestrator response is
dispatched as exactly 4093 characters ending in the marker. -/
theorem worker_truncation_spec :
    (∀ r : List Char, 4096 < r.length →
      worker_truncate r = r.take 4090 ++ ['.', '.', '.']) ∧
    (∀ r fb : List Char, r.length = 5000 →
      (worker_finalize r fb).length = 4093 ∧
      (worker_finalize r fb).drop 4090 = ['.', '.', '.']) := by
  constructor
  · intro r hr
    unfold worker_truncate
    rw [if_pos hr]
  · intro r fb hr
    have hne : r.isEmpty = false := by
      cases r with
      | nil => simp at hr
      | cons a t => rfl
    unfold worker_finalize
    rw [hne]
    simp only [Bool.false_eq_true, if_false]
    unfold worker_truncate
    rw [if_pos (by omega)]
    constructor
    · rw [List.length_append, List.length_take, hr,
        min_eq_left (by omega : (4090:Nat) ≤ 5000)]
      rfl
    · exact List.drop_left' (by rw [List.length_take, hr,
        min_eq_left (by omega : (4090:Nat) ≤ 5000)])

/-- Witness for `worker_truncation_spec` at a concrete 5000-character
response. -/
theorem worker_truncation_spec_witness :
    (worker_finalize (List.replicate 5000 'a') []).length = 4093 ∧
    (worker_finalize (List.replicate 5000 'a') []).drop 4090 =
      ['.', '.', '.'] :=
  worker_truncation_spec.2 (List.replicate 5000 'a') []
    (by rw [List.length_replicate])

/-! ## Webhook acknowledgement: theorem -/

/-- Claim C9: `process_webhook` acknowledges with HTTP 200 on every path —
successful enqueue, rate-limit denial, unparseable or status-update
payloads, enqueue failure, missing queue client, and the outer exception
handler. -/
theorem process_webhook_always_200 (body : Option PyVal)
    (counts : List (String × List Int)) (now : Int) (redisOk pushOk : Bool) :
    (process_webhook body counts now redisOk pushOk).status = 200 := by
  cases body with
  | none => rfl
  | some d =>
    simp only [process_webhook]
    split
    · split_ifs <;> rfl
    · rfl

/-! ## Fallback and escalation: theorems -/

lemma should_escalate_iff (store : Store) (sid et : String) :
    should_escalate store sid et = true ↔
      (5 ≤ store sid ∨ (et = "agent_error" ∧ 3 ≤ store sid)) := by
  unfold should_escalate
  simp [Bool.or_eq_true, Bool.and_eq_true, decide_eq_true_eq, beq_iff_eq]

/-- Claim C1: with a session id, the escalation decision is taken on the
error count as read before any increment, escalation happens exactly when
the count is at least 5 or the category is `agent_error` with count at
least 3, an escalated call leaves the store untouched, and a
non-escalated call returns a canned category reply and increments exactly
the error count of that session by 1. -/
theorem fallback_escalation_increment (error_type sid : String)
    (store : Store) (choice : Nat) :
    (isEscalation (get_fallback_response error_type (some sid) store choice).1 = true ↔
      (5 ≤ store sid ∨ (error_type = "agent_error" ∧ 3 ≤ store sid))) ∧
    (isEscalation (get_fallback_response error_type (some sid) store choice).1 = true →
      (get_fallback_response error_type (some sid) store choice).2 = store) ∧
    (isEscalation (get_fallback_response error_type (some sid) store choice).1 = false →
      (get_fallback_response error_type (some sid) store choice).1 =
        Reply.canned (if knownCategories.contains error_type then error_type
          else "general_error") (choice % 3) ∧
      (get_fallback_response error_type (some sid) store choice).2 sid =
        store sid + 1 ∧
      (∀ s2, s2 ≠ sid →
        (get_fallback_response error_type (some sid) store choice).2 s2 =
          store s2)) := by
  simp only [get_fallback_response]
  by_cases hesc : should_escalate store sid error_type = true
  · rw [if_pos hesc]
    refine ⟨?_, ?_, ?_⟩
    · constructor
      · intro _; exact (should_escalate_iff store sid error_type).mp hesc
      · intro _; rfl
    · intro _; rfl
    · intro h; cases h
  · rw [if_neg hesc]
    refine ⟨?_, ?_, ?_⟩
    · constructor
      · intro h; cases h
      · intro h; exact absurd ((should_escalate_iff store sid error_type).mpr h) hesc
    · intro h; cases h
    · intro _
      refine ⟨rfl, ?_, ?_⟩
      · simp [increment_error_count]
      · intro s2 hs2
        simp [increment_error_count, hs2]

/-- Witness for `fallback_escalation_increment`: a session at count 3 with
category `agent_error` escalates with the count left at 3; a session at
count 0 does not escalate and its count becomes 1. -/
theorem fallback_escalation_increment_witness :
    isEscalation (get_fallback_response "agent_error" (some "s")
      (fun _ => 3) 0).1 = true ∧
    (get_fallback_response "agent_error" (some "s") (fun _ => 3) 0).2 = (fun _ => 3) ∧
    (get_fallback_response "general_error" (some "s") (fun _ => 0) 0).2 "s" = 1 :=
  ⟨(fallback_escalation_increment "agent_error" "s" (fun _ => 3) 0).1.mpr
     (Or.inr ⟨rfl, by norm_num⟩),
   (fallback_escalation_increment "agent_error" "s" (fun _ => 3) 0).2.1
     ((fallback_escalation_increment "agent_error" "s" (fun _ => 3) 0).1.mpr
       (Or.inr ⟨rfl, by norm_num⟩)),
   (((fallback_escalation_increment "general_error" "s" (fun _ => 0) 0).2.2
     (by decide)).2.1)⟩

/-- Claim C10: once the error count of a session has reached 5, every call
with that session id escalates, for any category, and the store (hence
the error count) is left unchanged. -/
theorem escalation_absorbing (error_type sid : String) (store : Store)
    (choice : Nat) (h : 5 ≤ store sid) :
    get_fallback_response error_type (some sid) store choice =
      (Reply.escalation (choice % 3), store) := by
  simp only [get_fallback_response]
  rw [if_pos ((should_escalate_iff store sid error_type).mpr (Or.inl h))]

/-- Witness for `escalation_absorbing` at a concrete session with count
7 and an unrelated category. -/
theorem escalation_absorbing_witness :
    get_fallback_response "timeout_error" (some "s") (fun _ => 7) 1 =
      (Reply.escalation 1, fun _ => 7) :=
  escalation_absorbing "timeout_error" "s" (fun _ => 7) 1 (by norm_num)

lemma agentCall_no_escalate (store : Store) (sid : String) (c : Nat)
    (h : store sid < 3) :
    agentCall store sid c =
      (Reply.canned "agent_error" (c % 3), increment_error_count store sid) := by
  unfold agentCall
  simp only [get_fallback_response]
  rw [if_neg]
  · rfl
  · intro hesc
    rcases (should_escalate_iff store sid "agent_error").mp hesc with h5 | ⟨_, h3⟩
    · omega
    · omega

lemma agentCall_escalate (store : Store) (sid : String) (c : Nat)
    (h : 3 ≤ store sid) :
    agentCall store sid c = (Reply.escalation (c % 3), store) := by
  unfold agentCall
  simp only [get_fallback_response]
  rw [if_pos ((should_escalate_iff store sid "agent_error").mpr
    (Or.inr ⟨rfl, h⟩))]

/-- Counterexample to claim C3: on a fresh session (count 0), the third
consecutive `agent_error` call checks the count at 2, which is below the
threshold 3, so it returns the `agent_error` canned reply, not the
escalation response. -/
theorem third_agent_error_call_counterexample :
    (agentCall (agentCall (agentCall (fun _ => 0) "s" 0).2 "s" 0).2 "s" 0).1 =
      Reply.canned "agent_error" 0 ∧
    isEscalation
      (agentCall (agentCall (agentCall (fun _ => 0) "s" 0).2 "s" 0).2 "s" 0).1 =
      false := by
  constructor
  · decide
  · decide

/-- Claim C3 as amended: starting from a fresh session, three consecutive
`agent_error` calls all return canned replies (the third checks count 2
and brings the count to 3), and the fourth call returns the escalation
response. -/
theorem agent_error_escalates_on_fourth_call (sid : String) (c1 c2 c3 c4 : Nat) :
    isEscalation (agentCall (fun _ => 0) sid c1).1 = false ∧
    isEscalation (agentCall (agentCall (fun _ => 0) sid c1).2 sid c2).1 = false ∧
    (agentCall (agentCall (agentCall (fun _ => 0) sid c1).2 sid c2).2 sid c3).1 =
      Reply.canned "agent_error" (c3 % 3) ∧
    (agentCall (agentCall (agentCall (fun _ => 0) sid c1).2 sid c2).2 sid c3).2 sid = 3 ∧
    isEscalation (agentCall
      (agentCall (agentCall (agentCall (fun _ => 0) sid c1).2 sid c2).2 sid c3).2
      sid c4).1 = true := by
  have h1 := agentCall_no_escalate (fun _ => 0) sid c1 (by norm_num)
  have e1 : (agentCall (fun _ => 0) sid c1).2 =
      increment_error_count (fun _ => 0) sid := by rw [h1]
  have h2 := agentCall_no_escalate (increment_error_count (fun _ => 0) sid)
    sid c2 (by simp [increment_error_count])
  have e2 : (agentCall (agentCall (fun _ => 0) sid c1).2 sid c2).2 =
      increment_error_count (increment_error_count (fun _ => 0) sid) sid := by
    rw [e1, h2]
  have h3 := agentCall_no_escalate
    (increment_error_count (increment_error_count (fun _ => 0) sid) sid)
    sid c3 (by simp [increment_error_count])
  have e3 : (agentCall (agentCall (agentCall (fun _ => 0) sid c1).2 sid c2).2
      sid c3).2 =
      increment_error_count (increment_error_count
        (increment_error_count (fun _ => 0) sid) sid) sid := by
    rw [e2, h3]
  have h4 := agentCall_escalate
    (increment_error_count (increment_error_count
      (increment_error_count (fun _ => 0) sid) sid) sid)
    sid c4 (by simp [increment_error_count])
  refine ⟨?_, ?_, ?_, ?_, ?_⟩
  · rw [h1]
    rfl
  · rw [e1, h2]
    rfl
  · rw [e2, h3]
  · rw [e3]
    simp [increment_error_count]
  · rw [e3, h4]
    rfl

/-! ## Rate limiter: theorems -/

lemma length_filter_mono (l : List Int) (p q : Int → Bool)
    (h : ∀ a, p a = true → q a = true) :
    (l.filter p).length ≤ (l.filter q).length := by
  induction l with
  | nil => simp
  | cons a t ih =>
    by_cases hp : p a = true
    · rw [List.filter_cons_of_pos hp, List.filter_cons_of_pos (h a hp)]
      simpa using ih
    · rw [List.filter_cons_of_neg (by simpa using hp)]
      by_cases hq : q a = true
      · rw [List.filter_cons_of_pos hq]
        calc (t.filter p).length ≤ (t.filter q).length := ih
          _ ≤ (t.filter q).length + 1 := Nat.le_succ _
          _ = (a :: t.filter q).length := rfl
      · rw [List.filter_cons_of_neg (by simpa using hq)]
        exact ih

lemma filter_prune_collapse (acc : List Int) (last r : Int) (h : last ≤ r) :
    (acc.filter (fun t => decide (last - 60 < t))).filter
      (fun t => decide (r - 60 < t)) =
    acc.filter (fun t => decide (r - 60 < t)) := by
  rw [List.filter_filter]
  apply List.filter_congr
  intro x _
  by_cases hx : r - 60 < x
  · have hx2 : last - 60 < x := by omega
    simp [hx, hx2]
  · simp [hx]

lemma rlStep_deny (w : List Int) (now : Int)
    (h : 10 ≤ ((w.filter (fun ts => decide (now - 60 < ts))).length)) :
    rlStep w now = (false, w.filter (fun ts => decide (now - 60 < ts))) := by
  unfold rlStep
  rw [if_pos h]

lemma rlStep_allow (w : List Int) (now : Int)
    (h : ¬ 10 ≤ ((w.filter (fun ts => decide (now - 60 < ts))).length)) :
    rlStep w now =
      (true, w.filter (fun ts => decide (now - 60 < ts)) ++ [now]) := by
  unfold rlStep
  rw [if_neg h]

lemma rlAccepted_cons (w : List Int) (r : Int) (rs : List Int) :
    rlAccepted w (r :: rs) =
      (if (rlStep w r).1 then [r] else []) ++ rlAccepted (rlStep w r).2 rs := by
  rcases hs : rlStep w r with ⟨b, w2⟩
  cases b <;> simp [rlAccepted, hs]

lemma rl_window_aux :
    ∀ (reqs : List Int) (last : Int) (acc : List Int) (T : Int),
      List.Chain (fun a b : Int => a ≤ b) last reqs →
      (acc.filter (inWb T)).length ≤ 10 →
      ((acc ++ rlAccepted (acc.filter (fun t => decide (last - 60 < t))) reqs).filter
        (inWb T)).length ≤ 10 := by
  intro reqs
  induction reqs with
  | nil =>
    intro last acc T _ hinv
    simpa [rlAccepted] using hinv
  | cons r rs ih =>
    intro last acc T hchain hinv
    rw [List.chain_cons] at hchain
    obtain ⟨hlr, hchain2⟩ := hchain
    rw [rlAccepted_cons]
    by_cases hd : 10 ≤ ((acc.filter (fun t => decide (r - 60 < t))).length)
    · have hstep := rlStep_deny (acc.filter (fun t => decide (last - 60 < t))) r
        (by rw [filter_prune_collapse acc last r hlr]; exact hd)
      rw [hstep, filter_prune_collapse acc last r hlr]
      simp only [Bool.false_eq_true, if_false, List.nil_append]
      exact ih r acc T hchain2 hinv
    · have hstep := rlStep_allow (acc.filter (fun t => decide (last - 60 < t))) r
        (by rw [filter_prune_collapse acc last r hlr]; exact hd)
      rw [hstep, filter_prune_collapse acc last r hlr]
      simp only [if_pos, List.singleton_append]
      have hstate : acc.filter (fun t => decide (r - 60 < t)) ++ [r] =
          (acc ++ [r]).filter (fun t => decide (r - 60 < t)) := by
        rw [List.filter_append]
        congr 1
        have : decide (r - 60 < r) = true := by
          simp only [decide_eq_true_eq]
          omega
        simp [this]
      have hgoal : acc ++ r :: rlAccepted
          ((acc ++ [r]).filter (fun t => decide (r - 60 < t))) rs =
          (acc ++ [r]) ++ rlAccepted
            ((acc ++ [r]).filter (fun t => decide (r - 60 < t))) rs := by
        rw [List.append_assoc]
        rfl
      rw [hstate, hgoal]
      apply ih r (acc ++ [r]) T hchain2
      rw [List.filter_append, List.length_append]
      by_cases hw : inWb T r = true
      · have hr60 : r - 60 ≤ T ∧ T < r := by
          unfold inWb at hw
          simp only [Bool.and_eq_true, decide_eq_true_eq] at hw
          omega
        have hsub : (acc.filter (inWb T)).length ≤
            (acc.filter (fun t => decide (r - 60 < t))).length := by
          apply length_filter_mono
          intro a ha
          unfold inWb at ha
          simp only [Bool.and_eq_true, decide_eq_true_eq] at ha
          simp only [decide_eq_true_eq]
          omega
        have h9 : (acc.filter (fun t => decide (r - 60 < t))).length ≤ 9 := by
          omega
        have hone : ([r].filter (inWb T)).length ≤ 1 := by
          simp [hw]
        omega
      · have : ([r].filter (inWb T)).length = 0 := by
          simp only [Bool.not_eq_true] at hw
          simp [hw]
        omega

lemma rl_window_bound (reqs : List Int) (T : Int)
    (h : List.Chain' (fun a b : Int => a ≤ b) reqs) :
    ((rlAccepted [] reqs).filter (inWb T)).length ≤ 10 := by
  cases reqs with
  | nil => simp [rlAccepted]
  | cons r rs =>
    have h2 : List.Chain (fun a b : Int => a ≤ b) r rs := h
    have haux := rl_window_aux (r :: rs) r [] T
      (List.chain_cons.mpr ⟨le_refl r, h2⟩) (by simp)
    simpa using haux

/-- Counterexample to claim C2: the source prunes with the strict test
`timestamp > now - 60`, which also removes timestamps exactly 60 seconds
old; under the claim wording (prune only those strictly older than
`now - 60`) ten timestamps recorded at time 0 still fill the window at
time 60 and the call would have to deny, but the source allows it and
records it. -/
theorem rate_limit_prune_boundary_counterexample :
    (claimPrune (List.replicate 10 0) 60).length = 10 ∧
    rlStep (List.replicate 10 0) 60 = (true, [60]) := by
  constructor
  · decide
  · decide

/-- Claim C2 as amended: each call prunes exactly the timestamps that are
60 seconds old or older (keeps `timestamp > now - 60`), denies without
recording when at least 10 survive, otherwise records `now` and allows;
a denied message produces a direct slow-down notice and no enqueued job;
and along any monotone request trace no sender gets more than 10
accepted messages in any rolling 60-second window `(T, T + 60]`. -/
theorem rate_limit_behavior :
    (∀ (w : List Int) (now : Int),
      ((rlStep w now).1 = false ↔
        10 ≤ ((w.filter (fun ts => decide (now - 60 < ts))).length)) ∧
      ((rlStep w now).1 = false →
        (rlStep w now).2 = w.filter (fun ts => decide (now - 60 < ts))) ∧
      ((rlStep w now).1 = true →
        (rlStep w now).2 =
          w.filter (fun ts => decide (now - 60 < ts)) ++ [now]) ∧
      (∀ ts ∈ (rlStep w now).2, now - 60 < ts)) ∧
    (∀ (d : PyVal) (counts : List (String × List Int)) (now : Int)
        (redisOk pushOk : Bool) (m p : String),
      (extract_message_data d).message = some m →
      (extract_message_data d).phone = some p →
      (check_rate_limit counts p now).1 = false →
      (process_webhook (some d) counts now redisOk pushOk).enqueued = none ∧
      (process_webhook (some d) counts now redisOk pushOk).sends =
        [(p, DirectText.slowDown)]) ∧
    (∀ (reqs : List Int) (T : Int),
      List.Chain' (fun a b : Int => a ≤ b) reqs →
      ((rlAccepted [] reqs).filter (inWb T)).length ≤ 10) := by
  refine ⟨?_, ?_, rl_window_bound⟩
  · intro w now
    by_cases hd : 10 ≤ ((w.filter (fun ts => decide (now - 60 < ts))).length)
    · rw [rlStep_deny w now hd]
      refine ⟨⟨fun _ => hd, fun _ => rfl⟩, fun _ => rfl, ?_, ?_⟩
      · intro h; cases h
      · intro ts hts
        have := List.of_mem_filter hts
        simpa [decide_eq_true_eq] using this
    · rw [rlStep_allow w now hd]
      refine ⟨?_, ?_, fun _ => rfl, ?_⟩
      · constructor
        · intro h
          simp at h
        · intro h
          exact absurd h hd
      · intro h
        simp at h
      · intro ts hts
        rcases List.mem_append.mp hts with h | h
        · have := List.of_mem_filter h
          simpa [decide_eq_true_eq] using this
        · rcases List.mem_singleton.mp h with rfl
          omega
  · intro d counts now redisOk pushOk m p hm hp hrl
    simp only [process_webhook, hm, hp, hrl, Bool.not_false, if_true]
    exact ⟨trivial, trivial⟩

/-- Witness for `rate_limit_behavior`: a full window denies without
recording; a concrete denied webhook call enqueues nothing and sends the
slow-down notice; a concrete monotone trace of twelve requests at time 0
stays within the bound. -/
theorem rate_limit_behavior_witness :
    rlStep (List.replicate 10 (5 : Int)) 10 = (false, List.replicate 10 (5 : Int)) ∧
    (process_webhook (some (PyVal.obj [("body", PyVal.obj [("text", PyVal.str "hi")]),
        ("from", PyVal.str "6591234567")]))
      [("6591234567", List.replicate 10 (50 : Int))] 60 true true).enqueued = none ∧
    ((rlAccepted [] [(0 : Int), 1, 2]).filter (inWb (-1))).length ≤ 10 :=
  ⟨by
    have h1 : (rlStep (List.replicate 10 (5 : Int)) 10).1 = false :=
      (rate_limit_behavior.1 (List.replicate 10 (5 : Int)) 10).1.mpr (by decide)
    have h2 := (rate_limit_behavior.1 (List.replicate 10 (5 : Int)) 10).2.1 h1
    have h3 : (List.replicate 10 (5 : Int)).filter
        (fun ts => decide ((10 : Int) - 60 < ts)) = List.replicate 10 (5 : Int) := by
      decide
    rw [h3] at h2
    rcases hs : rlStep (List.replicate 10 (5 : Int)) 10 with ⟨b, w2⟩
    rw [hs] at h1 h2
    simp only at h1 h2
    rw [h1, h2],
   (rate_limit_behavior.2.1
      (PyVal.obj [("body", PyVal.obj [("text", PyVal.str "hi")]),
        ("from", PyVal.str "6591234567")])
      [("6591234567", List.replicate 10 (50 : Int))] 60 true true
      "hi" "6591234567" (by decide) (by decide) (by decide)).1,
   rate_limit_behavior.2.2 [(0 : Int), 1, 2] (-1) (by
     refine List.chain'_cons.mpr ⟨by norm_num, ?_⟩
     refine List.chain'_cons.mpr ⟨by norm_num, ?_⟩
     exact List.chain'_singleton (2 : Int))⟩

/-! ## Payload extraction: theorems -/

/-- A payload in the standard nested shape (shape 1). -/
def samplePayloadStd : PyVal :=
  .obj [("entry", .arr [.obj [("changes", .arr [.obj [("value",
    .obj [("messages", .arr [.obj [("text", .obj [("body", .str "hello")]),
      ("from", .str "6591234567")]])])]])]])]

/-- A payload in the dict-entry alternative shape (shape 2). -/
def samplePayloadAlt1 : PyVal :=
  .obj [("entry", .obj [("changes", .obj [("value",
    .obj [("messages", .obj [("text", .obj [("body", .str "hello")]),
      ("from", .str "6591234567")])])])])]

/-- Counterexample to claim C4, in two parts.  First, a payload matching
the second supported shape (dict-valued `entry`) does not yield a
non-empty pair: the preliminary status check evaluates
`data['entry'][0]` on a dict, raising `KeyError`, which only the outer
handler catches, so extraction returns `(none, none)` with an error log.
Second, a payload matching no shape and lacking a status marker need not
log the line-132 warning: a JSON array payload makes `data.get` raise
`AttributeError`, again reaching the outer handler and its error log. -/
theorem extract_shapes_counterexample :
    (matchesShape2 samplePayloadAlt1 = true ∧
      (extract_message_data samplePayloadAlt1).message = none ∧
      (extract_message_data samplePayloadAlt1).phone = none ∧
      (extract_message_data samplePayloadAlt1).log = LogKind.exnError) ∧
    (matchesShape1 (PyVal.arr []) = false ∧
      matchesShape2 (PyVal.arr []) = false ∧
      matchesShape3 (PyVal.arr []) = false ∧
      hasStatusMarker (PyVal.arr []) = false ∧
      (extract_message_data (PyVal.arr [])).log = LogKind.exnError) := by
  refine ⟨⟨?_, ?_, ?_, ?_⟩, ?_, ?_, ?_, ?_, ?_⟩ <;> rfl

lemma validateCleanPy_str (ms : String) (h : pyTruthy (.str ms) = true) :
    validateCleanPy (.str ms) =
      .ok ((validate_and_clean_message ms.data).map String.mk) := by
  simp [validateCleanPy, h]

lemma validatePhonePy_str (ps : String) (h : pyTruthy (.str ps) = true) :
    validatePhonePy (.str ps) =
      .ok ((validate_phone_number ps.data).map String.mk) := by
  simp [validatePhonePy, h]

/-- Claim C4 as amended: on a payload whose preliminary status walk
succeeds and finds no marker, extraction succeeds exactly on the pattern
loop outcome: a truthy string pair whose message cleans and whose sender
validates gives a non-empty `(message, sender)` pair; no truthy pair
gives `(none, none)` with the warning log and nothing enqueued.
Separately, any payload the second shape accepts makes the status walk
fail (dict-valued `entry`), so shape-2 payloads never reach the pattern
loop. -/
theorem extract_message_data_behavior (d : PyVal) :
    (statusNoMarker d = true →
      ((∀ (ms ps : String) (m2 p2 : List Char),
        tryPatterns d = (some (.str ms), some (.str ps)) →
        pyTruthy (.str ms) = true → pyTruthy (.str ps) = true →
        validate_and_clean_message ms.data = some m2 →
        validate_phone_number ps.data = some p2 →
        (extract_message_data d).message = some (String.mk m2) ∧
        (extract_message_data d).phone = some (String.mk p2)) ∧
      (pairTruthy (tryPatterns d) = false →
        (extract_message_data d).message = none ∧
        (extract_message_data d).phone = none ∧
        (extract_message_data d).log = LogKind.extractWarning ∧
        (∀ (counts : List (String × List Int)) (now : Int)
            (redisOk pushOk : Bool),
          (process_webhook (some d) counts now redisOk pushOk).enqueued =
            none)))) ∧
    (∀ e, pattern2 d = Except.ok e → statusNoMarker d = false) := by
  constructor
  · intro hsm
    cases hsv : statusValue d with
    | error err =>
      exfalso
      simp only [statusNoMarker, hsv] at hsm
      exact Bool.noConfusion hsm
    | ok v =>
      cases hsc : pyContains "statuses" v with
      | error err =>
        exfalso
        simp only [statusNoMarker, hsv, hsc] at hsm
        exact Bool.noConfusion hsm
      | ok b =>
        have hb : b = false := by
          simp only [statusNoMarker, hsv, hsc, Bool.not_eq_true'] at hsm
          exact hsm
        subst hb
        constructor
        · intro ms ps m2 p2 htp hm hp hv1 hv2
          simp only [extract_message_data, hsv, hsc, htp, hm, hp,
            Bool.and_self, if_true, validateCleanPy_str ms hm,
            validatePhonePy_str ps hp, hv1, hv2, Option.map_some]
          exact ⟨rfl, rfl⟩
        · intro hnt
          have hB : extract_message_data d = ⟨none, none, [], .extractWarning⟩ := by
            simp only [extract_message_data, hsv, hsc]
            rcases htp : tryPatterns d with ⟨mo, po⟩
            rw [htp] at hnt
            cases mo with
            | none => cases po <;> rfl
            | some m =>
              cases po with
              | none => rfl
              | some p2 =>
                have hf : (pyTruthy m && pyTruthy p2) = false := by
                  simpa [pairTruthy] using hnt
                simp [hf]
          refine ⟨by rw [hB], by rw [hB], by rw [hB], ?_⟩
          intro counts now redisOk pushOk
          simp only [process_webhook, hB]
  · intro e h2
    cases d with
    | str s =>
      exfalso
      simp only [pattern2, pyGetItemStr, Bind.bind, Except.bind] at h2
      exact Except.noConfusion h2
    | num n =>
      exfalso
      simp only [pattern2, pyGetItemStr, Bind.bind, Except.bind] at h2
      exact Except.noConfusion h2
    | boolean b =>
      exfalso
      simp only [pattern2, pyGetItemStr, Bind.bind, Except.bind] at h2
      exact Except.noConfusion h2
    | null =>
      exfalso
      simp only [pattern2, pyGetItemStr, Bind.bind, Except.bind] at h2
      exact Except.noConfusion h2
    | arr xs =>
      exfalso
      simp only [pattern2, pyGetItemStr, Bind.bind, Except.bind] at h2
      exact Except.noConfusion h2
    | obj kvs =>
      cases hf : kvs.find? (fun kv => kv.1 == "entry") with
      | none =>
        exfalso
        simp only [pattern2, pyGetItemStr, hf, Bind.bind, Except.bind] at h2
        exact Except.noConfusion h2
      | some kv =>
        cases hkv : kv.2 with
        | obj kvs2 =>
          simp only [statusNoMarker, statusValue, pyGet, hf, hkv,
            Bind.bind, Except.bind, pyGetItem0]
        | str s =>
          exfalso
          simp only [pattern2, pyGetItemStr, hf, hkv, Bind.bind,
            Except.bind] at h2
          exact Except.noConfusion h2
        | num n =>
          exfalso
          simp only [pattern2, pyGetItemStr, hf, hkv, Bind.bind,
            Except.bind] at h2
          exact Except.noConfusion h2
        | boolean b =>
          exfalso
          simp only [pattern2, pyGetItemStr, hf, hkv, Bind.bind,
            Except.bind] at h2
          exact Except.noConfusion h2
        | null =>
          exfalso
          simp only [pattern2, pyGetItemStr, hf, hkv, Bind.bind,
            Except.bind] at h2
          exact Except.noConfusion h2
        | arr xs =>
          exfalso
          simp only [pattern2, pyGetItemStr, hf, hkv, Bind.bind,
            Except.bind] at h2
          exact Except.noConfusion h2

/-- Witness for `extract_message_data_behavior`: the standard-shape sample
payload passes the status walk and extracts its message and sender. -/
theorem extract_message_data_behavior_witness :
    statusNoMarker samplePayloadStd = true ∧
    (extract_message_data samplePayloadStd).message = some "hello" ∧
    (extract_message_data samplePayloadStd).phone = some "6591234567" :=
  ⟨rfl,
   (((extract_message_data_behavior samplePayloadStd).1 rfl).1
      "hello" "6591234567" "hello".data "6591234567".data
      rfl rfl rfl (by decide) (by decide)).1,
   (((extract_message_data_behavior samplePayloadStd).1 rfl).1
      "hello" "6591234567" "hello".data "6591234567".data
      rfl rfl rfl (by decide) (by decide)).2⟩

end Hlas
